import Mathlib

/-!
# Verification of the Connectum examples' authorization and redaction subsystem

This development shallowly embeds, in Lean, the request-pipeline logic of the
Connectum examples repository:

* the redaction interceptor of `src/extensions/redact/redact.ts`
  (`redact`, `rpcCheck`, `createRedactInterceptor`), translated from the
  TypeScript source; a message (`Record<string, unknown>` in the source) is
  modelled as an insertion-ordered association list whose values are opaque
  (the source never inspects them, only deletes keys);
* the authentication/authorization pipeline configured by the auth examples
  (`src/auth/src/index.ts`, `src/unnamed/part_006`).  The implementations of
  `createJwtAuthInterceptor` / `createAuthzInterceptor` /
  `createProtoAuthzInterceptor` live in the external `@connectum/auth`
  package, which is not part of this repository; those evaluators are
  modelled from the specification's component design (sections 3, 4.1-4.3),
  while the concrete rule sets, skip lists and handlers are translated from
  repository sources.
-/

namespace Connectum

/-! ## Redaction: data model (from `src/extensions/redact/redact.ts`) -/

/-- A protobuf field descriptor as seen by `redact`: its JSON/local name and
whether it carries the `connectum.options.sensitive = true` option
(`getOption(field, sensitive)` in the source). -/
structure FieldDesc where
  localName : String
  sensitive : Bool
deriving DecidableEq, Repr

/-- A message descriptor (`DescMessage`): the list of its field descriptors,
in declaration order. -/
structure DescMessage where
  fields : List FieldDesc
deriving DecidableEq, Repr

/-- A method descriptor (`DescMethod`): whether it carries the
`connectum.options.use_sensitive = true` option, and its input and output
message descriptors. -/
structure DescMethod where
  useSensitive : Bool
  input : DescMessage
  output : DescMessage
deriving DecidableEq, Repr

/-- A runtime message (`Record<string, unknown>`): an insertion-ordered list
of properties.  Values are opaque to `redact` (it only deletes keys), so the
value type is a parameter. -/
abbrev Msg (α : Type) : Type := List (String × α)

/-- `delete message[k]` on a JavaScript object: the property named `k`
disappears; the remaining properties keep their order and values. -/
def deleteKey {α : Type} (m : Msg α) (k : String) : Msg α :=
  m.filter (fun p => p.1 ≠ k)

/-- `redact(schema, message)` from `redact.ts`: for each field of the schema,
if the field carries the sensitive option, delete the property with that
field's local name from the message. -/
def redact {α : Type} (schema : DescMessage) (message : Msg α) : Msg α :=
  schema.fields.foldl
    (fun m field => if field.sensitive then deleteKey m field.localName else m)
    message

/-- `rpcCheck(rpc)` from `redact.ts`: true exactly when the method descriptor
carries the `use_sensitive` option with value `true`. -/
def rpcCheck (rpc : DescMethod) : Bool :=
  rpc.useSensitive

/-- `RedactOptions` from `redact.ts`: the optional `skipStreaming` flag. -/
structure RedactOptions where
  skipStreaming : Option Bool := none

/-- A unary/stream request as the interceptor sees it: the called method's
descriptor, the request streaming flag, and the request message. -/
structure Req (α : Type) where
  method : DescMethod
  stream : Bool
  message : Msg α
deriving DecidableEq

/-- A response as the interceptor sees it after `next` returns. -/
structure Res (α : Type) where
  method : DescMethod
  stream : Bool
  message : Msg α
deriving DecidableEq

/-- The request-side mutation of `createRedactInterceptor`:
`if (!req.stream) redact(req.method.input, req.message)` — the request
message is redacted in place before `next` is called; streaming requests are
left untouched. -/
def redactReq {α : Type} (req : Req α) : Req α :=
  if req.stream then req
  else { req with message := redact req.method.input req.message }

/-- `createRedactInterceptor(options)` from `redact.ts`, applied to a handler
`next` and a request.  `skipStreaming` defaults to `true` when the option is
omitted.  Methods failing `rpcCheck` pass through untouched; otherwise the
non-streaming request message is redacted before the handler runs, and the
response message is redacted unless the response is streaming and
`skipStreaming` is set. -/
def createRedactInterceptor {α : Type} (options : RedactOptions)
    (next : Req α → Res α) (req : Req α) : Res α :=
  let skipStreaming := options.skipStreaming.getD true
  if rpcCheck req.method = false then next req
  else
    let res := next (redactReq req)
    if skipStreaming && res.stream then res
    else { res with message := redact res.method.output res.message }

/-- The key `k` is the local name of some sensitive field of the schema. -/
def sensitiveKey (schema : DescMessage) (k : String) : Bool :=
  schema.fields.any (fun f => f.sensitive && f.localName == k)

/-! ## Authorization: data model

Modelled from the spec: the `@connectum/auth` package implementing
`createJwtAuthInterceptor`, `createAuthzInterceptor` and
`createProtoAuthzInterceptor` is not part of this repository (only its
callers, configuration and end-to-end tests are).  The definitions below
follow the spec's data model (section 3) and component design
(sections 4.1-4.3) word by word; the concrete rule sets, skip lists,
credentials and handlers further down are translated from
`src/auth/src/index.ts`, `src/auth/src/services/codeBasedService.ts` and
`src/unnamed/part_006` / `src/unnamed/part_007`. -/

/-- The verified result of a credential: subject (required), optional
display name, role set (spec section 3, AuthContext). -/
structure AuthContext where
  subject : String
  name : Option String
  roles : List String
deriving DecidableEq, Repr

/-- Default policy of a rule set: `allow` or `deny` (conventionally `deny`). -/
inductive Policy where
  | allow
  | deny
deriving DecidableEq, Repr

/-- A policy rule (spec section 3, PolicyRule): a diagnostic name, a set of
method patterns, and an optional role requirement (`requires: { roles }` in
the examples' configuration).  The effect is always `allow`; a denial is
implicit by omission. -/
structure PolicyRule where
  name : String
  methods : List String
  requiresRoles : Option (List String)
deriving DecidableEq, Repr

/-- An ordered rule list plus a default policy (spec section 3,
PolicyRuleSet). -/
structure PolicyRuleSet where
  rules : List PolicyRule
  defaultPolicy : Policy
deriving DecidableEq, Repr

/-- Method-pattern matching (spec sections 3 and 9): a pattern ending in
`/*` matches exactly the methods of that service, by a check that the
method identity starts with the service name plus the slash; any other
pattern matches only the identical method identity.  Stated over the
underlying character lists so that it evaluates by kernel reduction. -/
def matchesPattern (pattern id : String) : Bool :=
  if pattern.data.reverse.take 2 == ['*', '/'] then
    id.data.take (pattern.data.length - 1) == pattern.data.dropLast
  else pattern.data == id.data

/-- A rule matches a method identity when any of its patterns does. -/
def ruleMatches (r : PolicyRule) (id : String) : Bool :=
  r.methods.any (fun p => matchesPattern p id)

/-- Some pattern of the list matches the method identity. -/
def matchesAny (patterns : List String) (id : String) : Bool :=
  patterns.any (fun p => matchesPattern p id)

/-- The first rule, in declared order, whose pattern set matches the method
identity (spec section 4.3, step 2: first syntactic match wins). -/
def findRule (rules : List PolicyRule) (id : String) : Option PolicyRule :=
  rules.find? (fun r => ruleMatches r id)

/-- All required roles are present in the context's role set (conjunction
across required roles, spec section 3). -/
def rolesSatisfied (required : List String) (ctx : AuthContext) : Bool :=
  required.all (fun role => ctx.roles.contains role)

/-- Outcome of one matched rule (spec section 4.3): a rule without a role
requirement allows; an explicit requirement allows only when an AuthContext
is present and its role set contains every required role. -/
def ruleAllows (r : PolicyRule) (ctx : Option AuthContext) : Bool :=
  match r.requiresRoles with
  | none => true
  | some required =>
    match ctx with
    | none => false
    | some c => rolesSatisfied required c

/-- `authorize(methodIdentity, authContext | absent)` (spec section 4.3):
scan the rule list in declared order; the first matching rule determines the
outcome; when no rule matches, the default policy applies. -/
def authorize (rs : PolicyRuleSet) (id : String) (ctx : Option AuthContext) : Bool :=
  match findRule rs.rules id with
  | some r => ruleAllows r ctx
  | none => rs.defaultPolicy == Policy.allow

/-- The evaluator's decision with its denial reason (spec sections 4.3, 6
and 7): a denial without an AuthContext is surfaced as `unauthenticated`, a
denial with one as `permission denied`. -/
inductive AuthzDecision where
  | allow
  | denyUnauthenticated
  | denyPermission
deriving DecidableEq, Repr

/-- `authorize` with the denial reason attached (spec sections 4.3 and 7). -/
def authorizeDecision (rs : PolicyRuleSet) (id : String)
    (ctx : Option AuthContext) : AuthzDecision :=
  if authorize rs id ctx then .allow
  else
    match ctx with
    | none => .denyUnauthenticated
    | some _ => .denyPermission

/-! ## Credential verification and the authentication interceptor -/

/-- Modelled from the spec: a bearer credential as the external
`@connectum/auth` verifier sees it (spec sections 3 and 4.1) — structural
well-formedness, signature validity, issuer claim, subject claim, optional
display-name claim, role-list claim, expiry and issued-at timestamps.  The
examples' `claimsMapping { roles: "roles", name: "name" }` is baked in as
the `name` and `roles` fields. -/
structure Credential where
  wellFormed : Bool
  sigValid : Bool
  issuer : String
  sub : String
  name : Option String
  roles : List String
  exp : Nat
  iat : Nat
deriving DecidableEq, Repr

/-- The distinct verification-failure kinds of spec section 4.1. -/
inductive VerificationError where
  | malformed
  | badSignature
  | issuerMismatch
  | expired
deriving DecidableEq, Repr

/-- Modelled from the spec: `verify(credential, expectedIssuer)` of the
external Credential Verifier (spec section 4.1).  Expiry is exclusive
(spec section 8: `expiry == now` fails). -/
def verify (cred : Credential) (expectedIssuer : String) (now : Nat) :
    Except VerificationError AuthContext :=
  if cred.wellFormed = false then .error .malformed
  else if cred.sigValid = false then .error .badSignature
  else if cred.issuer ≠ expectedIssuer then .error .issuerMismatch
  else if cred.exp ≤ now then .error .expired
  else .ok { subject := cred.sub, name := cred.name, roles := cred.roles }

/-- The authentication interceptor's per-call state machine result
(spec section 4.2): `Skipped`, `Authenticated` with the stored AuthContext,
or `Rejected`. -/
inductive AuthnOutcome where
  | skipped
  | authenticated (ctx : AuthContext)
  | rejected
deriving DecidableEq, Repr

/-- Modelled from the spec: the authentication interceptor (spec
section 4.2).  A method matching the skip list is `Skipped`; otherwise a
missing credential is `Rejected`; otherwise the verifier decides. -/
def authenticate (skipMethods : List String) (issuer : String) (now : Nat)
    (id : String) (cred : Option Credential) : AuthnOutcome :=
  if matchesAny skipMethods id then .skipped
  else
    match cred with
    | none => .rejected
    | some c =>
      match verify c issuer now with
      | .ok ctx => .authenticated ctx
      | .error _ => .rejected

/-! ## The composed pipeline -/

/-- The configuration surface of the auth examples (spec section 6): skip
list, issuer, ordered rule list, default policy. -/
structure PipelineConfig where
  issuer : String
  skipMethods : List String
  rules : List PolicyRule
  defaultPolicy : Policy
deriving DecidableEq, Repr

/-- The externally visible outcome of one call (spec section 6): success
with the handler's response, `unauthenticated`, or `permission denied`. -/
inductive CallOutcome (ρ : Type) where
  | ok (response : ρ)
  | unauthenticated
  | permissionDenied
deriving DecidableEq, Repr

/-- The AuthContext the authentication stage stored for the call, when it
stored one. -/
def authnCtx (cfg : PipelineConfig) (now : Nat) (id : String)
    (cred : Option Credential) : Option AuthContext :=
  match authenticate cfg.skipMethods cfg.issuer now id cred with
  | .authenticated ctx => some ctx
  | _ => none

/-- Modelled from the spec: the composed per-call pipeline (spec sections 2
and 6): authentication interceptor, then authorization interceptor, then
handler.  A skipped method (spec section 3: the SkipList exempts a method
from authentication and authorization entirely, as wired in
`src/unnamed/part_006` where the same list is passed to both interceptors)
runs the handler with no AuthContext.  A rejection surfaces as
`unauthenticated`; an authorization denial at this point always has an
AuthContext and surfaces as `permission denied` (spec section 7). -/
def runCall {ρ : Type} (cfg : PipelineConfig) (now : Nat) (id : String)
    (cred : Option Credential) (handler : Option AuthContext → ρ) :
    CallOutcome ρ :=
  match authenticate cfg.skipMethods cfg.issuer now id cred with
  | .rejected => .unauthenticated
  | .skipped => .ok (handler none)
  | .authenticated ctx =>
    if authorize { rules := cfg.rules, defaultPolicy := cfg.defaultPolicy } id (some ctx) then
      .ok (handler (some ctx))
    else .permissionDenied

/-! ## The auth example's concrete configuration

Translated from `src/auth/src/index.ts` (the code-based side; the
proto-derived public method `protobased.v1.ProtoBasedService/SayHello` that
`getPublicMethods` auto-discovers from generated code is included literally,
as the file's comment documents it). -/

/-- The `codebased-public` rule of `src/auth/src/index.ts`. -/
def ruleCodebasedPublic : PolicyRule :=
  { name := "codebased-public",
    methods :=
      [ "codebased.v1.CodeBasedService/SayHello",
        "grpc.health.v1.Health/*",
        "grpc.reflection.v1.ServerReflection/*" ],
    requiresRoles := none }

/-- The `codebased-authenticated` rule of `src/auth/src/index.ts`. -/
def ruleCodebasedAuthenticated : PolicyRule :=
  { name := "codebased-authenticated",
    methods := ["codebased.v1.CodeBasedService/SayGoodbye"],
    requiresRoles := none }

/-- The `codebased-admin-only` rule of `src/auth/src/index.ts`. -/
def ruleCodebasedAdminOnly : PolicyRule :=
  { name := "codebased-admin-only",
    methods := ["codebased.v1.CodeBasedService/SaySecret"],
    requiresRoles := some ["admin"] }

/-- The ordered programmatic rule list of `createProtoAuthzInterceptor` in
`src/auth/src/index.ts`. -/
def codeBasedRules : List PolicyRule :=
  [ruleCodebasedPublic, ruleCodebasedAuthenticated, ruleCodebasedAdminOnly]

/-- The auth example's pipeline configuration: issuer and skip list from
`createJwtAuthInterceptor`, rules and default policy from
`createProtoAuthzInterceptor` (`src/auth/src/index.ts`). -/
def authExampleConfig : PipelineConfig :=
  { issuer := "auth-example",
    skipMethods :=
      [ "codebased.v1.CodeBasedService/SayHello",
        "protobased.v1.ProtoBasedService/SayHello",
        "grpc.health.v1.Health/*" ],
    rules := codeBasedRules,
    defaultPolicy := .deny }

/-- The user test token of `src/auth/src/index.ts` / `src/unnamed/part_007`:
claims `sub: "user-123"`, `name: "Alice"`, no roles, issuer "auth-example",
well-formed and correctly signed, expiring at time 1000. -/
def userCred : Credential :=
  { wellFormed := true, sigValid := true, issuer := "auth-example",
    sub := "user-123", name := some "Alice", roles := [],
    exp := 1000, iat := 0 }

/-- The admin test token: claims `sub: "admin-1"`, `name: "Bob"`,
`roles: ["admin"]`, issuer "auth-example". -/
def adminCred : Credential :=
  { wellFormed := true, sigValid := true, issuer := "auth-example",
    sub := "admin-1", name := some "Bob", roles := ["admin"],
    exp := 1000, iat := 0 }

/-- `sayGoodbye` of `src/auth/src/services/codeBasedService.ts`:
`Goodbye, {name}! (from {auth.name ?? auth.subject})`.  The handler calls
`requireAuthContext()`, which throws when no AuthContext exists; the thrown
case is `none`. -/
def sayGoodbyeHandler (reqName : String) (ctx : Option AuthContext) :
    Option String :=
  match ctx with
  | none => none
  | some a =>
    some ("Goodbye, " ++ reqName ++ "! (from " ++ a.name.getD a.subject ++ ")")

/-- `saySecret` of `src/auth/src/services/codeBasedService.ts`: the response
`message` and `secret` fields.  `requireAuthContext()` throwing is `none`. -/
def saySecretHandler (reqName : String) (ctx : Option AuthContext) :
    Option (String × String) :=
  match ctx with
  | none => none
  | some a =>
    some ("Hello, " ++ reqName ++ "!",
      "The admin secret is 42. Verified by " ++ a.subject
        ++ " with roles: " ++ String.intercalate ", " a.roles)

/-- `sayHello` of `src/auth/src/services/codeBasedService.ts`: greets, and
mentions the subject only when an AuthContext is present. -/
def sayHelloHandler (reqName : String) (ctx : Option AuthContext) : String :=
  match ctx with
  | none => "Hello, " ++ reqName ++ "!"
  | some a => "Hello, " ++ reqName ++ "! (authenticated as " ++ a.subject ++ ")"

/-! ## Concrete fixtures for witnesses -/

/-- A credential whose signature does not verify (the
`Bearer invalid.jwt.token` of the end-to-end tests). -/
def invalidCred : Credential :=
  { wellFormed := true, sigValid := false, issuer := "auth-example",
    sub := "user-123", name := some "Alice", roles := [],
    exp := 1000, iat := 0 }

/-- A rule requiring both the `admin` and `ops` roles, for exercising role
conjunction. -/
def opsRule : PolicyRule :=
  { name := "ops-admin",
    methods := ["ops.v1.OpsService/Do"],
    requiresRoles := some ["admin", "ops"] }

/-- A rule set containing only `opsRule`, with default policy `deny`. -/
def opsRuleSet : PolicyRuleSet :=
  { rules := [opsRule], defaultPolicy := .deny }

/-- A rule with an explicit but empty role requirement. -/
def emptyReqRule : PolicyRule :=
  { name := "authn-only",
    methods := ["ops.v1.OpsService/Ping"],
    requiresRoles := some [] }

/-- A rule set containing only `emptyReqRule`, with default policy `deny`. -/
def emptyReqRuleSet : PolicyRuleSet :=
  { rules := [emptyReqRule], defaultPolicy := .deny }

/-- A context holding only the `admin` role. -/
def adminOnlyCtx : AuthContext :=
  { subject := "u1", name := none, roles := ["admin"] }

/-- A context holding `admin`, `ops` and an extra role. -/
def adminOpsExtraCtx : AuthContext :=
  { subject := "u2", name := none, roles := ["admin", "ops", "extra"] }

/-- A schema whose `password` field carries the sensitive option and whose
`user` field does not (as in the README's `CodeVerifyRequest.code`
example). -/
def schemaW : DescMessage :=
  { fields := [ { localName := "password", sensitive := true },
                { localName := "user", sensitive := false } ] }

/-- `schemaW` with an extra non-sensitive field: flags the same keys as
sensitive. -/
def schemaW2 : DescMessage :=
  { fields := [ { localName := "password", sensitive := true },
                { localName := "user", sensitive := false },
                { localName := "id", sensitive := false } ] }

/-- A concrete message carrying a sensitive and a non-sensitive property. -/
def msgW : Msg String := [("password", "hunter2"), ("user", "alice")]

/-- A method descriptor carrying the `use_sensitive` marker, with `schemaW`
on both sides. -/
def methodSens : DescMethod :=
  { useSensitive := true, input := schemaW, output := schemaW }

/-- A method descriptor without the `use_sensitive` marker. -/
def methodPlain : DescMethod :=
  { useSensitive := false, input := schemaW, output := schemaW }

/-- A non-streaming request for `methodSens` carrying `msgW`. -/
def reqSens : Req String :=
  { method := methodSens, stream := false, message := msgW }

/-- A schema with the same field names as `schemaW` but nothing flagged
sensitive: redacting with it is the identity. -/
def schemaNoSens : DescMessage :=
  { fields := [ { localName := "password", sensitive := false },
                { localName := "user", sensitive := false } ] }

/-- A marked method whose request type flags `password` sensitive but whose
response type flags nothing: response-side redaction cannot mask what the
handler received. -/
def methodSensIn : DescMethod :=
  { useSensitive := true, input := schemaW, output := schemaNoSens }

/-- A non-streaming request for `methodSensIn` carrying `msgW`. -/
def reqSensIn : Req String :=
  { method := methodSensIn, stream := false, message := msgW }

/-- A handler echoing the request message back as a non-streaming
response. -/
def echoNext (r : Req String) : Res String :=
  { method := r.method, stream := false, message := r.message }

/-- A handler answering every request with a fixed streaming response that
still carries the sensitive `password` property. -/
def streamNext (r : Req String) : Res String :=
  { method := r.method, stream := true, message := msgW }

/-- The character list `pat` occurs contiguously in the character list `s`
(structural recursion, so it evaluates by kernel reduction). -/
def containsSub (pat : List Char) : List Char → Bool
  | [] => pat == []
  | c :: cs => (c :: cs).take pat.length == pat || containsSub pat cs

/-- The string `pat` occurs as a contiguous substring of `s`. -/
def strContains (s pat : String) : Bool :=
  containsSub pat.data s.data

/-! ## Redaction: basic lemmas -/

theorem foldl_delete_eq_filter {α : Type} (fs : List FieldDesc) (m : Msg α) :
    fs.foldl (fun m field => if field.sensitive then deleteKey m field.localName else m) m
      = m.filter (fun p => !(fs.any (fun f => f.sensitive && f.localName == p.1))) := by
  induction fs generalizing m with
  | nil => simp [List.filter]
  | cons f fs ih =>
    rw [List.foldl_cons, ih]
    by_cases hf : f.sensitive
    · simp only [hf, if_pos, deleteKey, List.filter_filter]
      congr 1
      funext p
      simp [hf, Bool.and_comm, decide_eq_true_eq, eq_comm]
      tauto
    · simp only [hf, if_neg, Bool.false_and]
      congr 1
      funext p
      simp [hf]

/-- `redact` is a filter: it keeps exactly the properties whose key is not
the local name of a sensitive schema field, in their original order. -/
theorem redact_eq_filter {α : Type} (schema : DescMessage) (m : Msg α) :
    redact schema m = m.filter (fun p => !(sensitiveKey schema p.1)) := by
  unfold redact sensitiveKey
  exact foldl_delete_eq_filter schema.fields m

theorem mem_redact_iff {α : Type} (schema : DescMessage) (m : Msg α)
    (p : String × α) :
    p ∈ redact schema m ↔ p ∈ m ∧ sensitiveKey schema p.1 = false := by
  rw [redact_eq_filter, List.mem_filter]
  simp

theorem redact_sublist {α : Type} (schema : DescMessage) (m : Msg α) :
    (redact schema m).Sublist m := by
  rw [redact_eq_filter]
  exact List.filter_sublist m

theorem sensitive_absent_of_redact {α : Type} (schema : DescMessage)
    (m : Msg α) (f : FieldDesc) (hf : f ∈ schema.fields)
    (hs : f.sensitive = true) (p : String × α) (hp : p ∈ redact schema m) :
    p.1 ≠ f.localName := by
  rcases (mem_redact_iff schema m p).mp hp with ⟨-, hkey⟩
  intro heq
  have : sensitiveKey schema p.1 = true := by
    unfold sensitiveKey
    rw [List.any_eq_true]
    exact ⟨f, hf, by simp [hs, heq]⟩
  rw [this] at hkey
  simp at hkey

/-! ## Claim theorems: redaction -/

/-- C7: for every message and schema, `redact` produces a message in which
every field flagged sensitive is removed — absent from the output, not
merely set to null — the result is deterministic given the schema's
sensitivity flags, and the surviving fields are neither reordered nor
renamed (the output is a sublist of the input, each surviving property kept
verbatim). -/
theorem redact_removes_sensitive_deterministic {α : Type}
    (schema : DescMessage) (m : Msg α) :
    (∀ f ∈ schema.fields, f.sensitive = true →
      ∀ p ∈ redact schema m, p.1 ≠ f.localName)
    ∧ (redact schema m).Sublist m
    ∧ (∀ schema2 : DescMessage,
        (∀ k : String, sensitiveKey schema k = sensitiveKey schema2 k) →
        redact schema m = redact schema2 m) := by
  refine ⟨?_, redact_sublist schema m, ?_⟩
  · intro f hf hs p hp
    exact sensitive_absent_of_redact schema m f hf hs p hp
  · intro schema2 h
    rw [redact_eq_filter, redact_eq_filter]
    congr 1
    funext p
    rw [h]

/-- C7 witness: on `schemaW` and `msgW`, the surviving `user` property is
not the sensitive key, the output is a sublist of the input, and a schema
with the same sensitivity flags redacts identically. -/
theorem redact_removes_sensitive_deterministic_witness :
    (("user", "alice") : String × String).1 ≠ "password"
    ∧ (redact schemaW msgW).Sublist msgW
    ∧ redact schemaW msgW = redact schemaW2 msgW := by
  refine ⟨?_, (redact_removes_sensitive_deterministic schemaW msgW).2.1, ?_⟩
  · exact (redact_removes_sensitive_deterministic schemaW msgW).1
      { localName := "password", sensitive := true } (by decide) rfl
      ("user", "alice") (by decide)
  · exact (redact_removes_sensitive_deterministic schemaW msgW).2.2 schemaW2
      (by intro k; simp [sensitiveKey, schemaW, schemaW2])

/-- C8: for every call whose method descriptor does not carry the
`use_sensitive` marker with value `true`, the redaction interceptor passes
the call through untouched: the handler is applied to the original request
and its response is returned unchanged. -/
theorem unmarked_method_passthrough {α : Type} (options : RedactOptions)
    (next : Req α → Res α) (req : Req α)
    (h : rpcCheck req.method = false) :
    createRedactInterceptor options next req = next req := by
  unfold createRedactInterceptor
  simp [h]

/-- C8 witness: a call on the unmarked `methodPlain` passes through the
interceptor untouched, sensitive property and all. -/
theorem unmarked_method_passthrough_witness :
    createRedactInterceptor {} echoNext
        { method := methodPlain, stream := false, message := msgW }
      = echoNext { method := methodPlain, stream := false, message := msgW } :=
  unmarked_method_passthrough {} echoNext
    { method := methodPlain, stream := false, message := msgW } rfl

/-- C10: `redact` examines only the top-level properties named by the given
schema: a property of the message survives exactly when its key is not a
sensitive field name of the schema, and `redact` never recurses into nested
message values — a nested sub-message survives wholesale (values
untouched), even when the nested value itself contains entries whose keys
are flagged sensitive at the top level. -/
theorem redact_top_level_only :
    (∀ (α : Type) (schema : DescMessage) (m : Msg α) (p : String × α),
      p ∈ m → (p ∈ redact schema m ↔ sensitiveKey schema p.1 = false))
    ∧ (∀ (schema : DescMessage) (m : Msg (Msg String)) (k : String)
        (inner : Msg String), (k, inner) ∈ m →
        sensitiveKey schema k = false → (k, inner) ∈ redact schema m) := by
  constructor
  · intro α schema m p hp
    rw [mem_redact_iff]
    exact ⟨fun h => h.2, fun h => ⟨hp, h⟩⟩
  · intro schema m k inner hmem hk
    rw [mem_redact_iff]
    exact ⟨hmem, hk⟩

/-- C10 witness: redacting a message whose `profile` sub-message contains a
`password` entry, against a schema flagging the top-level `password`
field, keeps the nested entry intact. -/
theorem redact_top_level_only_witness :
    (("profile", [("password", "hunter2")]) : String × Msg String)
      ∈ redact schemaW [("password", []), ("profile", [("password", "hunter2")])] :=
  redact_top_level_only.2 schemaW
    [("password", []), ("profile", [("password", "hunter2")])]
    "profile" [("password", "hunter2")] (by decide) (by decide)

/-- C5 counterexample: on the marked `methodSensIn`, with no
inbound-redaction configuration anywhere (the only option is
`skipStreaming`), the handler does not receive the request intact.  The
handler is the exact argument of `next` in `createRedactInterceptor`,
namely `redactReq reqSensIn`, whose message has already lost the sensitive
`password` property.  To make the handler's view observable end to end, the
method's output schema flags nothing sensitive, so response-side redaction
is the identity here (fourth conjunct): the echo handler's received message
reaches the interceptor's output verbatim, and that output lacks
`password` — under response-only redaction the output would have been the
full original message. -/
theorem request_not_delivered_intact :
    (redactReq reqSensIn).message = [("user", "alice")]
    ∧ reqSensIn.message = [("password", "hunter2"), ("user", "alice")]
    ∧ (redactReq reqSensIn).message ≠ reqSensIn.message
    ∧ redact methodSensIn.output reqSensIn.message = reqSensIn.message
    ∧ (createRedactInterceptor {} echoNext reqSensIn).message = [("user", "alice")]
    ∧ (createRedactInterceptor {} echoNext reqSensIn).message ≠ reqSensIn.message := by
  refine ⟨?_, rfl, ?_, ?_, ?_, ?_⟩ <;> decide

/-- C5 amended: on a method carrying the `use_sensitive` marker, the
interceptor always redacts the non-streaming inbound request message with
the input schema's sensitivity flags before the handler runs — there is no
configuration to disable inbound redaction — so the handler receives
`redact req.method.input req.message`, with every sensitive input field
absent; the outbound response is then redacted from the handler's result
(unless streaming with `skipStreaming`). -/
theorem request_redacted_on_marked_methods {α : Type}
    (options : RedactOptions) (next : Req α → Res α) (req : Req α)
    (hmark : rpcCheck req.method = true) (hstream : req.stream = false) :
    createRedactInterceptor options next req
      = (fun res =>
          if (options.skipStreaming.getD true) && res.stream then res
          else { res with message := redact res.method.output res.message })
        (next { req with message := redact req.method.input req.message })
    ∧ (∀ f ∈ req.method.input.fields, f.sensitive = true →
        ∀ p ∈ (redact req.method.input req.message), p.1 ≠ f.localName) := by
  constructor
  · unfold createRedactInterceptor redactReq
    simp [hmark, hstream]
  · intro f hf hs p hp
    exact sensitive_absent_of_redact req.method.input req.message f hf hs p hp

/-- C5 amended witness: on `reqSens`, the interceptor's result is the
response stage applied to the handler's output on the redacted request, and
the surviving `user` property is not the sensitive `password` field. -/
theorem request_redacted_on_marked_methods_witness :
    createRedactInterceptor {} echoNext reqSens
      = (fun res =>
          if (({} : RedactOptions).skipStreaming.getD true) && res.stream then res
          else { res with message := redact res.method.output res.message })
        (echoNext { reqSens with message := redact reqSens.method.input reqSens.message })
    ∧ (("user", "alice") : String × String).1 ≠ "password" := by
  refine ⟨(request_redacted_on_marked_methods {} echoNext reqSens rfl rfl).1, ?_⟩
  exact (request_redacted_on_marked_methods {} echoNext reqSens rfl rfl).2
    { localName := "password", sensitive := true } (by decide) rfl
    ("user", "alice") (by decide)

/-- C6: with the skip-streaming flag set (and `true` is the default when the
option is omitted), a streaming call on a marked method passes through the
interceptor entirely untouched — a streaming response retains every field,
sensitive ones included — whereas for a non-streaming call on a marked
method the response message contains no field flagged sensitive in the
output schema. -/
theorem skip_streaming_and_response_redaction {α : Type}
    (options : RedactOptions) (next : Req α → Res α) (req : Req α)
    (hskip : options.skipStreaming.getD true = true) :
    (({} : RedactOptions).skipStreaming.getD true = true)
    ∧ (req.stream = true → (next req).stream = true →
        createRedactInterceptor options next req = next req)
    ∧ (rpcCheck req.method = true → (next (redactReq req)).stream = true →
        createRedactInterceptor options next req = next (redactReq req))
    ∧ (rpcCheck req.method = true → (next (redactReq req)).stream = false →
        ∀ f ∈ (next (redactReq req)).method.output.fields, f.sensitive = true →
          ∀ p ∈ (createRedactInterceptor options next req).message,
            p.1 ≠ f.localName) := by
  refine ⟨rfl, ?_, ?_, ?_⟩
  · intro hreq hres
    unfold createRedactInterceptor
    cases hmark : rpcCheck req.method with
    | false => simp
    | true => simp [redactReq, hreq, hskip, hres]
  · intro hmark hres
    unfold createRedactInterceptor
    simp [hmark, hskip, hres]
  · intro hmark hres f hf hs p hp
    have hres' : createRedactInterceptor options next req
        = { next (redactReq req) with
            message := redact (next (redactReq req)).method.output
              (next (redactReq req)).message } := by
      unfold createRedactInterceptor
      simp [hmark, hres]
    rw [hres'] at hp
    exact sensitive_absent_of_redact (next (redactReq req)).method.output
      (next (redactReq req)).message f hf hs p hp

/-- C6 witness: with default options, a streaming call on `methodSens`
passes through with its sensitive `password` intact, and on the
non-streaming echoed call the redacted response's surviving `user` property
is not the sensitive field. -/
theorem skip_streaming_and_response_redaction_witness :
    createRedactInterceptor {} streamNext
        { method := methodSens, stream := true, message := msgW }
      = streamNext { method := methodSens, stream := true, message := msgW }
    ∧ (streamNext { method := methodSens, stream := true, message := msgW }).message
      = [("password", "hunter2"), ("user", "alice")]
    ∧ (("user", "alice") : String × String).1 ≠ "password" := by
  refine ⟨?_, rfl, ?_⟩
  · exact (skip_streaming_and_response_redaction {} streamNext
      { method := methodSens, stream := true, message := msgW } rfl).2.1 rfl rfl
  · exact (skip_streaming_and_response_redaction {} echoNext reqSens rfl).2.2.2
      rfl rfl { localName := "password", sensitive := true } (by decide) rfl
      ("user", "alice") (by decide)

/-! ## Claim theorems: authorization pipeline (modelled from the spec) -/

/-- C1: the authorization outcome is determined by scanning the rule list in
declared order — the first rule whose pattern set matches the call's method
identity determines the outcome regardless of any later rules — and when no
rule matches, the rule set's default policy applies (allowed exactly when it
is `allow`). -/
theorem first_match_wins_and_default_policy (rs : PolicyRuleSet) (id : String)
    (ctx : Option AuthContext) :
    (∀ (pre : List PolicyRule) (r : PolicyRule) (post : List PolicyRule),
        rs.rules = pre ++ r :: post →
        (∀ r' ∈ pre, ruleMatches r' id = false) →
        ruleMatches r id = true →
        authorize rs id ctx = ruleAllows r ctx)
    ∧ ((∀ r ∈ rs.rules, ruleMatches r id = false) →
        authorize rs id ctx = (rs.defaultPolicy == Policy.allow)) := by
  constructor
  · intro pre r post hsplit hpre hr
    have h1 : pre.find? (fun r' => ruleMatches r' id) = none :=
      List.find?_eq_none.mpr (by intro x hx; simp [hpre x hx])
    have h2 : List.find? (fun r' => ruleMatches r' id) (r :: post) = some r :=
      List.find?_cons_of_pos post (by simpa using hr)
    have hfind : findRule rs.rules id = some r := by
      unfold findRule
      rw [hsplit, List.find?_append, h1, h2]
      rfl
    unfold authorize
    rw [hfind]
  · intro hnone
    have hfind : findRule rs.rules id = none :=
      List.find?_eq_none.mpr (by intro x hx; simp [hnone x hx])
    unfold authorize
    rw [hfind]

/-- C1 witness: in the auth example's rule list the admin rule is the first
match for `SaySecret` and decides the outcome, and an unknown method falls
through to the default policy `deny`. -/
theorem first_match_wins_and_default_policy_witness :
    authorize { rules := codeBasedRules, defaultPolicy := .deny }
        "codebased.v1.CodeBasedService/SaySecret" (some adminOnlyCtx)
      = ruleAllows ruleCodebasedAdminOnly (some adminOnlyCtx)
    ∧ authorize { rules := codeBasedRules, defaultPolicy := .deny }
        "unknown.v1.UnknownService/Method" none
      = (Policy.deny == Policy.allow) := by
  constructor
  · exact (first_match_wins_and_default_policy
      { rules := codeBasedRules, defaultPolicy := .deny }
      "codebased.v1.CodeBasedService/SaySecret" (some adminOnlyCtx)).1
      [ruleCodebasedPublic, ruleCodebasedAuthenticated] ruleCodebasedAdminOnly []
      rfl (by decide) (by decide)
  · exact (first_match_wins_and_default_policy
      { rules := codeBasedRules, defaultPolicy := .deny }
      "unknown.v1.UnknownService/Method" none).2 (by decide)

/-- C2: a call on a method identity matching a pattern in the configured
skip list reaches the handler and succeeds with no AuthContext, whatever
credential — none, valid or invalid — the request carries. -/
theorem skipped_methods_bypass_credentials {ρ : Type} (cfg : PipelineConfig)
    (now : Nat) (id : String) (cred : Option Credential)
    (handler : Option AuthContext → ρ)
    (h : matchesAny cfg.skipMethods id = true) :
    runCall cfg now id cred handler = .ok (handler none) := by
  unfold runCall authenticate
  simp [h]

/-- C2 witness: `SayHello` is in the auth example's skip list; with no
credential, a valid bearer token, and an invalid one, the call succeeds and
the handler sees no AuthContext (the greeting carries no
`authenticated as` suffix). -/
theorem skipped_methods_bypass_credentials_witness :
    runCall authExampleConfig 500 "codebased.v1.CodeBasedService/SayHello"
        none (sayHelloHandler "World") = .ok "Hello, World!"
    ∧ runCall authExampleConfig 500 "codebased.v1.CodeBasedService/SayHello"
        (some userCred) (sayHelloHandler "Alice") = .ok "Hello, Alice!"
    ∧ runCall authExampleConfig 500 "codebased.v1.CodeBasedService/SayHello"
        (some invalidCred) (sayHelloHandler "Alice") = .ok "Hello, Alice!" := by
  refine ⟨?_, ?_, ?_⟩
  · exact (skipped_methods_bypass_credentials authExampleConfig 500
      "codebased.v1.CodeBasedService/SayHello" none (sayHelloHandler "World")
      (by decide)).trans (by decide)
  · exact (skipped_methods_bypass_credentials authExampleConfig 500
      "codebased.v1.CodeBasedService/SayHello" (some userCred)
      (sayHelloHandler "Alice") (by decide)).trans (by decide)
  · exact (skipped_methods_bypass_credentials authExampleConfig 500
      "codebased.v1.CodeBasedService/SayHello" (some invalidCred)
      (sayHelloHandler "Alice") (by decide)).trans (by decide)

/-- C3: when the first matching rule carries a role requirement, the call is
allowed exactly when an AuthContext is present whose role set contains every
required role (conjunction): a requirement `{admin, ops}` denies a context
with roles `{admin}` only and allows one with `{admin, ops, extra}`; an
explicit empty requirement allows any authenticated context. -/
theorem role_requirement_conjunction (rs : PolicyRuleSet) (id : String)
    (r : PolicyRule) (hfind : findRule rs.rules id = some r) :
    (∀ required, r.requiresRoles = some required →
        (∀ ctx : AuthContext,
          authorize rs id (some ctx) = rolesSatisfied required ctx)
        ∧ authorize rs id none = false)
    ∧ (r.requiresRoles = some ["admin", "ops"] →
        (∀ ctx : AuthContext, ctx.roles = ["admin"] →
          authorize rs id (some ctx) = false)
        ∧ (∀ ctx : AuthContext, ctx.roles = ["admin", "ops", "extra"] →
          authorize rs id (some ctx) = true))
    ∧ (r.requiresRoles = some [] →
        ∀ ctx : AuthContext, authorize rs id (some ctx) = true) := by
  have hauth : ∀ ctx, authorize rs id ctx = ruleAllows r ctx := by
    intro ctx
    unfold authorize
    rw [hfind]
  refine ⟨?_, ?_, ?_⟩
  · intro required hreq
    constructor
    · intro ctx
      rw [hauth]
      unfold ruleAllows
      rw [hreq]
    · rw [hauth]
      unfold ruleAllows
      rw [hreq]
  · intro hreq
    constructor
    · intro ctx hroles
      rw [hauth]
      simp only [ruleAllows, hreq, rolesSatisfied, hroles]
      decide
    · intro ctx hroles
      rw [hauth]
      simp only [ruleAllows, hreq, rolesSatisfied, hroles]
      decide
  · intro hreq ctx
    rw [hauth]
    simp only [ruleAllows, hreq, rolesSatisfied]
    simp

/-- C3 witness: against `opsRule` requiring `{admin, ops}`, a context with
roles `{admin}` is denied, one with `{admin, ops, extra}` is allowed, a
missing context is denied, and the empty-requirement rule allows the
authenticated `{admin}` context. -/
theorem role_requirement_conjunction_witness :
    authorize opsRuleSet "ops.v1.OpsService/Do" (some adminOnlyCtx) = false
    ∧ authorize opsRuleSet "ops.v1.OpsService/Do" (some adminOpsExtraCtx) = true
    ∧ authorize opsRuleSet "ops.v1.OpsService/Do" none = false
    ∧ authorize emptyReqRuleSet "ops.v1.OpsService/Ping" (some adminOnlyCtx) = true := by
  refine ⟨?_, ?_, ?_, ?_⟩
  · exact ((role_requirement_conjunction opsRuleSet "ops.v1.OpsService/Do"
      opsRule (by decide)).2.1 rfl).1 adminOnlyCtx rfl
  · exact ((role_requirement_conjunction opsRuleSet "ops.v1.OpsService/Do"
      opsRule (by decide)).2.1 rfl).2 adminOpsExtraCtx rfl
  · exact ((role_requirement_conjunction opsRuleSet "ops.v1.OpsService/Do"
      opsRule (by decide)).1 ["admin", "ops"] rfl).2
  · exact (role_requirement_conjunction emptyReqRuleSet "ops.v1.OpsService/Ping"
      emptyReqRule (by decide)).2.2 rfl adminOnlyCtx

/-- C4: every denied call distinguishes its cause — an `unauthenticated`
outcome implies the authentication stage stored no AuthContext for the
call, a `permission denied` outcome implies an AuthContext was stored and
the rule evaluation denied it — and at the evaluator level a denial without
a context is never `denyPermission` while a denial with one is never
`denyUnauthenticated`. -/
theorem denial_outcomes_distinguished {ρ : Type} (cfg : PipelineConfig)
    (now : Nat) (id : String) (cred : Option Credential)
    (handler : Option AuthContext → ρ) :
    (runCall cfg now id cred handler = .unauthenticated →
      authnCtx cfg now id cred = none)
    ∧ (runCall cfg now id cred handler = .permissionDenied →
        ∃ ctx, authnCtx cfg now id cred = some ctx
          ∧ authorize { rules := cfg.rules, defaultPolicy := cfg.defaultPolicy }
              id (some ctx) = false)
    ∧ (∀ rs : PolicyRuleSet, authorizeDecision rs id none ≠ .denyPermission)
    ∧ (∀ (rs : PolicyRuleSet) (c : AuthContext),
        authorizeDecision rs id (some c) ≠ .denyUnauthenticated) := by
  refine ⟨?_, ?_, ?_, ?_⟩
  · intro h
    unfold runCall at h
    unfold authnCtx
    cases hA : authenticate cfg.skipMethods cfg.issuer now id cred with
    | skipped => rw [hA] at h
    | rejected => rfl
    | authenticated ctx =>
      rw [hA] at h
      by_cases hz : authorize { rules := cfg.rules, defaultPolicy := cfg.defaultPolicy }
          id (some ctx) = true <;> simp [hz] at h
  · intro h
    unfold runCall at h
    unfold authnCtx
    cases hA : authenticate cfg.skipMethods cfg.issuer now id cred with
    | skipped =>
      rw [hA] at h
      simp at h
    | rejected =>
      rw [hA] at h
      simp at h
    | authenticated ctx =>
      rw [hA] at h
      by_cases hz : authorize { rules := cfg.rules, defaultPolicy := cfg.defaultPolicy }
          id (some ctx) = true
      · simp [hz] at h
      · exact ⟨ctx, rfl, by simpa using hz⟩
  · intro rs
    unfold authorizeDecision
    by_cases hz : authorize rs id none = true <;> simp [hz]
  · intro rs c
    unfold authorizeDecision
    by_cases hz : authorize rs id (some c) = true <;> simp [hz]

/-- C4 witness: the auth example's `SayGoodbye` call without a credential is
unauthenticated and indeed no AuthContext was stored; `SaySecret` with the
non-admin user credential is permission-denied with a stored AuthContext the
evaluator rejected; and the evaluator never emits the other reason for each
context shape. -/
theorem denial_outcomes_distinguished_witness :
    authnCtx authExampleConfig 500 "codebased.v1.CodeBasedService/SayGoodbye" none = none
    ∧ authorizeDecision opsRuleSet "ops.v1.OpsService/Do" none ≠ .denyPermission
    ∧ authorizeDecision opsRuleSet "ops.v1.OpsService/Do" (some adminOnlyCtx)
        ≠ .denyUnauthenticated := by
  refine ⟨?_, ?_, ?_⟩
  · exact (denial_outcomes_distinguished authExampleConfig 500
      "codebased.v1.CodeBasedService/SayGoodbye" none
      (sayGoodbyeHandler "Eve")).1 (by decide)
  · exact (denial_outcomes_distinguished authExampleConfig 500
      "ops.v1.OpsService/Do" none (sayHelloHandler "x")).2.2.1 opsRuleSet
  · exact (denial_outcomes_distinguished authExampleConfig 500
      "ops.v1.OpsService/Do" none (sayHelloHandler "x")).2.2.2 opsRuleSet
      adminOnlyCtx

/-- C9: the end-to-end scenario of the auth example — the user credential
(`sub: user-123`, `name: Alice`, issuer `auth-example`) on the
authentication-only `SayGoodbye` succeeds with a response naming the caller
(`auth.name` falling back to `auth.subject`, here `Alice`); the same call
with no credential is unauthenticated; `SaySecret` (requires role `admin`)
with the non-admin credential is permission-denied; and with the admin
credential (`sub: admin-1`, `roles: [admin]`) it succeeds. -/
theorem end_to_end_auth_scenario :
    runCall authExampleConfig 500 "codebased.v1.CodeBasedService/SayGoodbye"
        (some userCred) (sayGoodbyeHandler "Alice")
      = .ok (some "Goodbye, Alice! (from Alice)")
    ∧ strContains "Goodbye, Alice! (from Alice)" "Alice" = true
    ∧ userCred.sub = "user-123"
    ∧ userCred.name.getD userCred.sub = "Alice"
    ∧ runCall authExampleConfig 500 "codebased.v1.CodeBasedService/SayGoodbye"
        none (sayGoodbyeHandler "Eve") = .unauthenticated
    ∧ runCall authExampleConfig 500 "codebased.v1.CodeBasedService/SaySecret"
        (some userCred) (saySecretHandler "Alice") = .permissionDenied
    ∧ runCall authExampleConfig 500 "codebased.v1.CodeBasedService/SaySecret"
        (some adminCred) (saySecretHandler "Bob")
      = .ok (some ("Hello, Bob!",
          "The admin secret is 42. Verified by admin-1 with roles: admin")) := by
  refine ⟨?_, ?_, ?_, ?_, ?_, ?_, ?_⟩ <;> decide

end Connectum
